import Mathlib

set_option autoImplicit false

/-!
Verification of the kanvert converter registry / factory / configuration
subsystem (`kanvert/core/registry.py`, `factory.py`, `config_manager.py`,
`base.py`).

Python dictionaries are modelled as insertion-ordered association lists
(`dictGet` / `dictSet` / `dictDel` mirror `d[k]`, `d[k] = v`, `del d[k]`).
Exceptions are modelled explicitly: a `KeyError` raised by an indexing
expression and the `ValidationError` raised by `ConverterRegistry.convert`
become an `Except` error value, and a Python exception raised by a plugin
probe is a `PyExn` (distinguishing `ImportError` from other exceptions,
because `_discover_builtin_converters` catches only `ImportError`).
-/

namespace Kanvert

/-! ### Python dict model -/

/-- `d.get(k)` / `d[k]` lookup on an insertion-ordered association list. -/
def dictGet {β : Type} : List (String × β) → String → Option β
  | [], _ => none
  | (k, v) :: rest, key => if k = key then some v else dictGet rest key

/-- `d[k] = v`: replace the entry in place if the key exists, else append. -/
def dictSet {β : Type} : List (String × β) → String → β → List (String × β)
  | [], key, v => [(key, v)]
  | (k, w) :: rest, key, v =>
    if k = key then (key, v) :: rest else (k, w) :: dictSet rest key v

/-- `del d[k]`: remove the entry for the key (dict keys are unique). -/
def dictDel {β : Type} : List (String × β) → String → List (String × β)
  | [], _ => []
  | (k, w) :: rest, key => if k = key then rest else (k, w) :: dictDel rest key

/-! ### `base.py`: formats, requests, results, converter surface -/

/-- `ConversionFormat` enum from `base.py`. -/
inductive ConversionFormat
  | pdf | html | docx | xlsx | pptx | txt | rtf | odt | comparison
deriving DecidableEq

/-- The `.value` string of each `ConversionFormat` member. -/
def ConversionFormat.value : ConversionFormat → String
  | .pdf => "pdf"
  | .html => "html"
  | .docx => "docx"
  | .xlsx => "xlsx"
  | .pptx => "pptx"
  | .txt => "txt"
  | .rtf => "rtf"
  | .odt => "odt"
  | .comparison => "comparison"

/-- `ConversionStatus` enum from `base.py`. -/
inductive ConversionStatus
  | pending | processing | completed | failed
deriving DecidableEq

/-- `ConversionRequest` (the `options`/`metadata` maps are open key/value
data interpreted per converter; modelled as string pairs). -/
structure ConversionRequest where
  content : String
  output_format : ConversionFormat
  options : List (String × String) := []
  metadata : List (String × String) := []

/-- `ConversionResult` from `base.py`; `bytes` is a list of byte values,
timestamps are abstract `Nat` clock readings. -/
structure ConversionResult where
  job_id : String
  status : ConversionStatus
  output_data : Option (List Nat) := none
  output_filename : Option String := none
  error_message : Option String := none
  metadata : Option (List (String × String)) := none
  created_at : Nat
  completed_at : Option Nat := none
deriving DecidableEq

/-- The health dictionary returned by `BaseConverter.get_health_status`. -/
structure HealthInfo where
  status : String
  is_initialized : Bool
  errors : List String
deriving DecidableEq

/-- The surface of a `BaseConverter` instance as used by the registry:
`validate_request` is a total boolean (every implementation in
`kanvert/services` returns a `bool` and catches its own exceptions),
`convert` is the value the coroutine resolves to, and `get_health_status`
may raise (a subclass may override it), which `_check_converter_health`
catches. -/
structure Converter where
  name : String
  supported_formats : List ConversionFormat
  validate_request : ConversionRequest → Bool
  convert : ConversionRequest → ConversionResult
  get_health_status : Except String HealthInfo

/-- `BaseConverter._create_result_success`.  `filename or f"..."` treats an
empty string as falsy; `self.supported_formats[0]` raises `IndexError`
(modelled as `none`) when the converter declares no formats. -/
def create_result_success (c : Converter) (job_id : String) (output_data : List Nat)
    (filename : Option String) (metadata : Option (List (String × String)))
    (now : Nat) : Option ConversionResult :=
  let given : Option String :=
    match filename with
    | some s => if s = "" then none else some s
    | none => none
  match given with
  | some fname =>
    some { job_id := job_id, status := .completed, output_data := some output_data,
           output_filename := some fname, metadata := metadata,
           created_at := now, completed_at := some now }
  | none =>
    match c.supported_formats.head? with
    | none => none
    | some fmt =>
      some { job_id := job_id, status := .completed, output_data := some output_data,
             output_filename := some (job_id ++ "." ++ fmt.value), metadata := metadata,
             created_at := now, completed_at := some now }

/-- `BaseConverter._create_result_failure`. -/
def create_result_failure (_c : Converter) (job_id : String) (error_message : String)
    (metadata : Option (List (String × String))) (now : Nat) : ConversionResult :=
  { job_id := job_id, status := .failed, error_message := some error_message,
    metadata := metadata, created_at := now, completed_at := some now }

/-! ### `registry.py`: ConverterRegistry -/

/-- The health snapshot built by `ConverterRegistry._check_converter_health`:
the normal branch carries the five keys of the success dictionary, the
`except` branch carries the `status`/`error` pair. -/
inductive HealthSnapshot
  | ok (status : String) (is_initialized : Bool) (supported_formats : List String)
      (errors : List String) (can_validate : Bool)
  | exn (status : String) (error : String)
deriving DecidableEq

/-- The `"status"` entry of a health snapshot. -/
def HealthSnapshot.status : HealthSnapshot → String
  | .ok s _ _ _ _ => s
  | .exn s _ => s

/-- `ConverterRegistry._check_converter_health`: probe the converter health
dictionary, run a throwaway `validate_request` on a synthetic request using
the first declared format (falling back to PDF for an empty list), and
derive the status; any exception from the probe yields the `unhealthy`
error snapshot. -/
def check_converter_health (c : Converter) : HealthSnapshot :=
  match c.get_health_status with
  | .error e => .exn "unhealthy" e
  | .ok h =>
    let test_request : ConversionRequest :=
      { content := "# Test", output_format := c.supported_formats.headD .pdf }
    let can_validate := c.validate_request test_request
    let status :=
      if ¬ h.is_initialized then "unhealthy"
      else if h.errors ≠ [] then "degraded"
      else if ¬ can_validate then "degraded"
      else "healthy"
    .ok status h.is_initialized (c.supported_formats.map ConversionFormat.value)
      h.errors can_validate

/-- State of a `ConverterRegistry`: `_converters`, `_format_mapping` and
`_health_status` (the `_performance_metrics` dict is initialised but never
read or written by any method, so it is not modelled). -/
structure ConverterRegistry where
  converters : List (String × Converter)
  format_mapping : List (String × List String)
  health_status : List (String × HealthSnapshot)

/-- `ConverterRegistry()` initial state. -/
def emptyRegistry : ConverterRegistry := ⟨[], [], []⟩

/-- One iteration of the format-mapping loop of `register_converter`:
create the entry if missing, then append the name unless already present. -/
def registerFormatStep (name : String) (m : List (String × List String))
    (fmt : ConversionFormat) : List (String × List String) :=
  let key := fmt.value
  let cur := (dictGet m key).getD []
  let newl := if name ∈ cur then cur else cur ++ [name]
  dictSet m key newl

/-- `ConverterRegistry.register_converter`: health-probe, store the
converter under its name (replacing any previous holder with a warning),
store the snapshot, then extend the format mapping additively.  The method
has no raise path: an unhealthy probe only logs. -/
def register_converter (s : ConverterRegistry) (c : Converter) : ConverterRegistry :=
  let hs := check_converter_health c
  { converters := dictSet s.converters c.name c,
    health_status := dictSet s.health_status c.name hs,
    format_mapping := c.supported_formats.foldl (registerFormatStep c.name) s.format_mapping }

/-- One iteration of the format-mapping loop of `unregister_converter`:
filter the name out of the entry and delete the entry if it became empty. -/
def unregisterFormatStep (name : String) (m : List (String × List String))
    (fmt : ConversionFormat) : List (String × List String) :=
  match dictGet m fmt.value with
  | none => m
  | some l =>
    if l.filter (fun x => x ≠ name) = [] then dictDel m fmt.value
    else dictSet m fmt.value (l.filter (fun x => x ≠ name))

/-- `ConverterRegistry.unregister_converter`: warning no-op when the name is
absent; otherwise remove the name from the format entries of the stored
converter's `supported_formats` and delete the name-map entry. -/
def unregister_converter (s : ConverterRegistry) (name : String) : ConverterRegistry :=
  match dictGet s.converters name with
  | none => s
  | some c =>
    { s with
      format_mapping := c.supported_formats.foldl (unregisterFormatStep name) s.format_mapping,
      converters := dictDel s.converters name }

/-- `ConverterRegistry.get_converter`. -/
def get_converter (s : ConverterRegistry) (name : String) : Option Converter :=
  dictGet s.converters name

/-- Errors observable from the registry: the `ValidationError` raised by
`convert`, and the `KeyError` a stale `_format_mapping` name raises inside
`get_converters_for_format`'s list comprehension. -/
inductive RegError
  | validationError (msg : String)
  | keyError (key : String)
deriving DecidableEq

/-- The list comprehension `[self._converters[name] for name in names]`:
the first name missing from `_converters` raises `KeyError`. -/
def resolveNames (s : ConverterRegistry) : List String → Except RegError (List Converter)
  | [] => .ok []
  | n :: ns =>
    match dictGet s.converters n with
    | none => .error (.keyError n)
    | some c =>
      match resolveNames s ns with
      | .ok cs => .ok (c :: cs)
      | .error e => .error e

/-- `ConverterRegistry.get_converters_for_format`. -/
def get_converters_for_format (s : ConverterRegistry) (format : ConversionFormat) :
    Except RegError (List Converter) :=
  resolveNames s ((dictGet s.format_mapping format.value).getD [])

/-- `ConverterRegistry.find_best_converter`: first converter in
registration order whose `validate_request` is true. -/
def find_best_converter (s : ConverterRegistry) (request : ConversionRequest) :
    Except RegError (Option Converter) :=
  match get_converters_for_format s request.output_format with
  | .error e => .error e
  | .ok cs => .ok (cs.find? (fun c => c.validate_request request))

/-- The `else` branch of `ConverterRegistry.convert` (no usable
`converter_name`): delegate to `find_best_converter`. -/
def registry_convert_auto (s : ConverterRegistry) (request : ConversionRequest) :
    Except RegError ConversionResult :=
  match find_best_converter s request with
  | .error e => .error e
  | .ok none =>
    .error (.validationError ("No converter available for format " ++ request.output_format.value))
  | .ok (some c) => .ok (c.convert request)

/-- `ConverterRegistry.convert`.  `if converter_name:` is a Python
truthiness test, so an empty-string name falls through to format-based
selection exactly like `None`. -/
def ConverterRegistry.convert (s : ConverterRegistry) (request : ConversionRequest)
    (converter_name : Option String) : Except RegError ConversionResult :=
  match converter_name with
  | some n =>
    if n = "" then registry_convert_auto s request
    else
      match get_converter s n with
      | none => .error (.validationError ("Converter " ++ n ++ " not found"))
      | some c => .ok (c.convert request)
  | none => registry_convert_auto s request

/-- Well-formedness of a registry state: every name in any format-mapping
entry is a key of `_converters` (the invariant the spec states for the
format-to-converter index). -/
def WF (s : ConverterRegistry) : Prop :=
  ∀ key l, dictGet s.format_mapping key = some l →
    ∀ n ∈ l, (dictGet s.converters n).isSome = true

/-! ### `factory.py`: ConverterPlugin and ConverterFactory -/

/-- A Python exception raised by a plugin method.
`_discover_builtin_converters` catches `ImportError` (falling back to
`_discover_builtin_converters_fallback`) but lets every other exception
propagate, so the two classes must be distinguished. -/
inductive PyExn
  | importError (msg : String)
  | otherError (msg : String)
deriving DecidableEq

/-- `str(e)` of an exception. -/
def PyExn.msg : PyExn → String
  | .importError m => m
  | .otherError m => m

deriving instance DecidableEq for Except

/-- The surface of a `ConverterPlugin` as used by the factory's discovery
and health reporting.  The probing methods may raise, which is modelled by
`Except`; metadata is an opaque payload. -/
structure ConverterPlugin where
  name : String
  get_dependencies : Except PyExn (List String)
  is_available : Except PyExn Bool
  get_metadata : Except PyExn String
deriving DecidableEq

/-- State of a `ConverterFactory`: `_plugins`, the `_converters` instance
cache (untouched by the operations modelled here) and `_auto_discover`.
The `_discovery_paths` list holds filesystem paths; the plugin classes
found in those files are passed to `discover_plugins` as one list per
file. -/
structure ConverterFactory where
  plugins : List (String × ConverterPlugin)
  converters : List (String × Converter)
  auto_discover : Bool

/-- `ConverterFactory.register_plugin`: last registration wins, with a
warning when the name was already present. -/
def register_plugin (f : ConverterFactory) (p : ConverterPlugin) : ConverterFactory :=
  { f with plugins := dictSet f.plugins p.name p }

/-- The loop of `_discover_builtin_converters`: register each available
plugin.  A raising `is_available` aborts the loop; registrations made
before the raise persist (the factory is mutated in place), so the result
is the partial factory paired with the escaped exception, if any. -/
def discoverBuiltinLoop (f : ConverterFactory) :
    List ConverterPlugin → ConverterFactory × Option PyExn
  | [] => (f, none)
  | p :: ps =>
    match p.is_available with
    | .error e => (f, some e)
    | .ok true => discoverBuiltinLoop (register_plugin f p) ps
    | .ok false => discoverBuiltinLoop f ps

/-- `ConverterFactory._discover_builtin_converters`: the whole loop sits in
a `try` whose only handler is `except ImportError`, which runs
`_discover_builtin_converters_fallback` — a routine that instantiates
converter classes directly and logs, but registers no plugin and leaves
`_plugins`/`_converters` untouched.  Any other exception propagates. -/
def discover_builtin_converters (f : ConverterFactory) (builtins : List ConverterPlugin) :
    ConverterFactory × Option PyExn :=
  match discoverBuiltinLoop f builtins with
  | (f2, none) => (f2, none)
  | (f2, some (.importError _)) => (f2, none)
  | (f2, some e) => (f2, some e)

/-- The per-file body of `_discover_plugins_in_path`: each file's scan runs
inside its own `try/except Exception`, so a raising `is_available` aborts
only the rest of that file, keeping the registrations already made. -/
def scanFile (f : ConverterFactory) : List ConverterPlugin → ConverterFactory
  | [] => f
  | p :: ps =>
    match p.is_available with
    | .error _ => f
    | .ok true => scanFile (register_plugin f p) ps
    | .ok false => scanFile f ps

/-- The path-discovery loop of `discover_plugins`: one isolated scan per
file. -/
def scanPaths (f : ConverterFactory) (files : List (List ConverterPlugin)) :
    ConverterFactory :=
  files.foldl scanFile f

/-- `ConverterFactory.discover_plugins`: no-op unless `_auto_discover`;
builtin discovery first (its non-ImportError exceptions propagate and skip
path discovery), then per-file path discovery. -/
def discover_plugins (f : ConverterFactory) (builtins : List ConverterPlugin)
    (files : List (List ConverterPlugin)) : ConverterFactory × Option PyExn :=
  if f.auto_discover then
    match discover_builtin_converters f builtins with
    | (f2, none) => (scanPaths f2 files, none)
    | (f2, some e) => (f2, some e)
  else (f, none)

/-- The comprehension of `ConverterFactory.get_available_plugins`: names of
plugins whose `is_available()` is true; a raising probe propagates. -/
def availableLoop : List (String × ConverterPlugin) → Except PyExn (List String)
  | [] => .ok []
  | (n, p) :: rest =>
    match p.is_available with
    | .error e => .error e
    | .ok b =>
      match availableLoop rest with
      | .error e => .error e
      | .ok ns => .ok (if b then n :: ns else ns)

/-- `ConverterFactory.get_available_plugins`. -/
def get_available_plugins (f : ConverterFactory) : Except PyExn (List String) :=
  availableLoop f.plugins

/-- One entry of the `plugins` dictionary of the factory health report:
either the `available`/`dependencies`/`metadata` dictionary, or the
`available: False` / `error` dictionary produced by the per-plugin
`except` handler. -/
inductive PluginStatus
  | ok (available : Bool) (dependencies : List String) (metadata : String)
  | err (error : String)
deriving DecidableEq

/-- The per-plugin `try` body of `ConverterFactory.health_check`: the first
raising accessor among `is_available`, `get_dependencies`, `get_metadata`
is caught and becomes the error entry. -/
def plugin_entry (p : ConverterPlugin) : PluginStatus :=
  match p.is_available with
  | .error e => .err e.msg
  | .ok b =>
    match p.get_dependencies with
    | .error e => .err e.msg
    | .ok deps =>
      match p.get_metadata with
      | .error e => .err e.msg
      | .ok md => .ok b deps md

/-- The dictionary returned by `ConverterFactory.health_check`. -/
structure FactoryHealthReport where
  total_plugins : Nat
  available_plugins : Nat
  status : String
  plugins : List (String × PluginStatus)
deriving DecidableEq

/-- `ConverterFactory.health_check`: note that `available_plugins` is
computed through `get_available_plugins()` *before* the per-plugin loop,
outside any `try`, so a raising `is_available` escapes the method. -/
def ConverterFactory.health_check (f : ConverterFactory) :
    Except PyExn FactoryHealthReport :=
  match get_available_plugins f with
  | .error e => .error e
  | .ok avail =>
    .ok { total_plugins := f.plugins.length,
          available_plugins := avail.length,
          status := if avail.length > 0 then "healthy" else "no_plugins_available",
          plugins := f.plugins.map (fun np => (np.1, plugin_entry np.2)) }

/-- Registration of exactly the available plugins of a list, in order: the
state `discoverBuiltinLoop` reaches after consuming a prefix that raises no
exception. -/
def regAvail (f : ConverterFactory) : List ConverterPlugin → ConverterFactory
  | [] => f
  | p :: ps =>
    match p.is_available with
    | .ok true => regAvail (register_plugin f p) ps
    | _ => regAvail f ps

/-- Whether `is_available()` returns `True` (without raising). -/
def pluginAvailable (p : ConverterPlugin) : Bool :=
  match p.is_available with
  | .ok true => true
  | _ => false

/-! ### `config_manager.py`: ConfigurationManager -/

/-- A Python value stored in a configuration entry, restricted to the
shapes the validation rules inspect: strings and integers. -/
inductive PyVal
  | vStr (s : String)
  | vInt (n : Int)
deriving DecidableEq

/-- A Python type object usable in an `isinstance` check of the `"type"`
validation rule. -/
inductive PyType
  | tStr | tInt
deriving DecidableEq

/-- `isinstance(value, expected_type)`. -/
def isinst : PyVal → PyType → Bool
  | .vStr _, .tStr => true
  | .vInt _, .tInt => true
  | _, _ => false

/-- The `validation_rules` dictionary of a `ConfigEntry`: an optional
allowed-value enumeration, an optional type check and optional numeric
bounds. -/
structure ValidationRules where
  allowed_values : Option (List PyVal) := none
  type : Option PyType := none
  min_value : Option Int := none
  max_value : Option Int := none
deriving DecidableEq

/-- `ConfigScope` enum. -/
inductive ConfigScope
  | globalScope | converter | user | runtime
deriving DecidableEq

/-- `ConfigEntry` model (`value` is `None`-able). -/
structure ConfigEntry where
  key : String
  value : Option PyVal
  scope : ConfigScope
  description : Option String := none
  default_value : Option PyVal := none
  is_required : Bool := false
  validation_rules : Option ValidationRules := none
deriving DecidableEq

/-- `ConfigurationManager._validate_config_value`: no rules means valid;
otherwise check membership in `allowed_values`, then `isinstance` against
`"type"`, then the numeric bounds — which are only applied when the value
is itself numeric. -/
def validate_config_value (entry : ConfigEntry) (value : PyVal) : Bool :=
  match entry.validation_rules with
  | none => true
  | some rules =>
    let allowedOk : Bool :=
      match rules.allowed_values with
      | some l => decide (value ∈ l)
      | none => true
    let typeOk : Bool :=
      match rules.type with
      | some t => isinst value t
      | none => true
    let rangeOk : Bool :=
      match value with
      | .vInt n =>
        (match rules.min_value with | some lo => decide (lo ≤ n) | none => true) &&
        (match rules.max_value with | some hi => decide (n ≤ hi) | none => true)
      | _ => true
    allowedOk && typeOk && rangeOk

/-- State of a `ConfigurationManager`: `_config_entries` and
`_config_cache` (the converter-config map and file paths are not touched
by the modelled operations). -/
structure ConfigurationManager where
  config_entries : List (String × ConfigEntry)
  config_cache : List (String × Option PyVal)

/-- `ConfigurationManager.get_config_value`. -/
def get_config_value (m : ConfigurationManager) (key : String)
    (default : Option PyVal) : Option PyVal :=
  match dictGet m.config_cache key with
  | some v => v
  | none =>
    match dictGet m.config_entries key with
    | some entry =>
      match entry.value with
      | none => entry.default_value
      | some v => some v
    | none => default

/-- `ConfigurationManager.update_config_value`: boolean result paired with
the (possibly unchanged) state; the method never raises. -/
def update_config_value (m : ConfigurationManager) (key : String) (value : PyVal) :
    Bool × ConfigurationManager :=
  match dictGet m.config_entries key with
  | none => (false, m)
  | some entry =>
    if ¬ validate_config_value entry value then (false, m)
    else
      (true,
        { config_entries := dictSet m.config_entries key { entry with value := some value },
          config_cache := dictSet m.config_cache key (some value) })

/-! ### Concrete instances for witnesses and counterexamples -/

/-- A healthy `get_health_status` dictionary. -/
def okHealth : HealthInfo := { status := "healthy", is_initialized := true, errors := [] }

/-- A fixed result payload returned by the sample converters. -/
def resultA : ConversionResult :=
  { job_id := "job-A", status := .completed, output_data := some [37, 80, 68, 70],
    created_at := 0 }

/-- Sample converter `A`: supports PDF but validates nothing. -/
def convA : Converter :=
  { name := "A", supported_formats := [.pdf],
    validate_request := fun _ => false,
    convert := fun _ => resultA,
    get_health_status := .ok okHealth }

/-- Sample converter `B`: supports PDF and validates everything. -/
def convB : Converter :=
  { name := "B", supported_formats := [.pdf],
    validate_request := fun _ => true,
    convert := fun _ => resultA,
    get_health_status := .ok okHealth }

/-- First registration of the name `x`: supports PDF. -/
def convX1 : Converter :=
  { name := "x", supported_formats := [.pdf],
    validate_request := fun _ => true,
    convert := fun _ => resultA,
    get_health_status := .ok okHealth }

/-- Replacement registration of the name `x`: supports HTML only. -/
def convX2 : Converter :=
  { name := "x", supported_formats := [.html],
    validate_request := fun _ => true,
    convert := fun _ => resultA,
    get_health_status := .ok okHealth }

/-- A converter registered under the empty name: `BaseConverter` accepts
any string as `name`, and the registry keys on it, but `convert`'s
`if converter_name:` test treats the empty string as falsy. -/
def convEmptyName : Converter :=
  { name := "", supported_formats := [.html],
    validate_request := fun _ => false,
    convert := fun _ => resultA,
    get_health_status := .ok okHealth }

/-- A converter whose registration-time probe is unhealthy
(`is_initialized` false) and whose `validate_request` is always false. -/
def convU : Converter :=
  { name := "u", supported_formats := [.pdf],
    validate_request := fun _ => false,
    convert := fun _ => resultA,
    get_health_status := .ok { status := "unhealthy", is_initialized := false, errors := [] } }

/-- Registry holding `A` then `B` for PDF, in that order. -/
def regAB : ConverterRegistry :=
  ⟨[("A", convA), ("B", convB)], [("pdf", ["A", "B"])], []⟩

/-- The stale state of claim C1's counterexample: register `x` for PDF,
replace it by a same-named converter for HTML, then unregister `x`.  The
cascade removal follows the replacement's `supported_formats`, so the PDF
entry keeps the name `x` although the name-map no longer has it. -/
def staleReg : ConverterRegistry :=
  unregister_converter (register_converter (register_converter emptyRegistry convX1) convX2) "x"

/-- A PDF request. -/
def reqPdf : ConversionRequest := { content := "# Hello", output_format := .pdf }

/-- An HTML request. -/
def reqHtml : ConversionRequest := { content := "<p>Hello</p>", output_format := .html }

/-- A plugin whose probes all succeed and report availability. -/
def pGood : ConverterPlugin :=
  { name := "good", get_dependencies := .ok ["weasyprint"],
    is_available := .ok true, get_metadata := .ok "good metadata" }

/-- A second well-behaved available plugin. -/
def pLate : ConverterPlugin :=
  { name := "late", get_dependencies := .ok [], is_available := .ok true,
    get_metadata := .ok "late metadata" }

/-- A plugin whose `is_available` raises a non-ImportError exception. -/
def pBoom : ConverterPlugin :=
  { name := "boom", get_dependencies := .ok [], is_available := .error (.otherError "probe failed"),
    get_metadata := .ok "boom metadata" }

/-- A plugin whose `is_available` raises an `ImportError`. -/
def pImp : ConverterPlugin :=
  { name := "imp", get_dependencies := .ok [], is_available := .error (.importError "no module"),
    get_metadata := .ok "imp metadata" }

/-- A plugin that is available but whose `get_metadata` raises. -/
def pBadMeta : ConverterPlugin :=
  { name := "badmeta", get_dependencies := .ok ["docx"], is_available := .ok true,
    get_metadata := .error (.otherError "metadata failed") }

/-- An empty factory with auto-discovery enabled. -/
def f0 : ConverterFactory := ⟨[], [], true⟩

/-- A factory whose second registered plugin has a raising probe. -/
def fBoom : ConverterFactory := ⟨[("good", pGood), ("boom", pBoom)], [], true⟩

/-- A factory with one well-behaved plugin and one whose `get_metadata`
raises. -/
def fMeta : ConverterFactory := ⟨[("good", pGood), ("badmeta", pBadMeta)], [], true⟩

/-- The `pdf.page_size` entry as installed by
`_initialize_default_configs`, with its allowed-value rule. -/
def entryPageSize : ConfigEntry :=
  { key := "pdf.page_size", value := some (.vStr "A4"), scope := .converter,
    description := some "Default page size for PDF generation",
    default_value := some (.vStr "A4"),
    validation_rules := some
      { allowed_values := some [.vStr "A4", .vStr "A3", .vStr "Letter", .vStr "Legal"] } }

/-- A bounded integer entry exercising the numeric min/max rules. -/
def entryTimeout : ConfigEntry :=
  { key := "converter.timeout", value := some (.vInt 300), scope := .converter,
    default_value := some (.vInt 300),
    validation_rules := some { type := some .tInt, min_value := some 1, max_value := some 3600 } }

/-- A configuration manager holding the two sample entries. -/
def mgrW : ConfigurationManager :=
  { config_entries := [("pdf.page_size", entryPageSize), ("converter.timeout", entryTimeout)],
    config_cache := [("pdf.page_size", some (.vStr "A4")), ("converter.timeout", some (.vInt 300))] }

/-- The result `create_result_success` builds for converter `A`, job `j`,
payload `[1, 2]`, no filename and clock reading `0`. -/
def resS : ConversionResult :=
  { job_id := "j", status := .completed, output_data := some [1, 2],
    output_filename := some "j.pdf", created_at := 0, completed_at := some 0 }

/-- The update `register_converter` applies to one format entry: append the
name unless present. -/
def addName (name : String) (l : List String) : List String :=
  if name ∈ l then l else l ++ [name]

/-- The update `unregister_converter` applies to one format entry. -/
def removeName (name : String) (l : List String) : List String :=
  l.filter (fun x => x ≠ name)

/-- The effect of one unregister step on a single format entry, written
with `Option.bind`: filter the entry, dropping it entirely when it
empties. -/
def pruneEntry (name : String) (o : Option (List String)) : Option (List String) :=
  o.bind (fun l => if removeName name l = [] then none else some (removeName name l))

/-! ### Dictionary lemmas -/

theorem dictGet_dictSet {β : Type} (m : List (String × β)) (k key : String) (v : β) :
    dictGet (dictSet m k v) key = if k = key then some v else dictGet m key := by
  induction m with
  | nil => simp [dictGet, dictSet]
  | cons hd tl ih =>
    obtain ⟨k0, v0⟩ := hd
    by_cases h : k0 = k
    · subst h
      by_cases hk : k0 = key <;> simp [dictSet, dictGet, hk]
    · by_cases hk : k0 = key
      · subst hk
        have : ¬ k = k0 := fun hh => h hh.symm
        simp [dictSet, dictGet, h, this]
      · simp [dictSet, dictGet, h, hk, ih]

theorem dictGet_dictDel_ne {β : Type} (m : List (String × β)) (k key : String)
    (h : k ≠ key) : dictGet (dictDel m k) key = dictGet m key := by
  induction m with
  | nil => simp [dictDel]
  | cons hd tl ih =>
    obtain ⟨k0, v0⟩ := hd
    by_cases h0 : k0 = k
    · subst h0
      simp [dictDel, dictGet, h]
    · by_cases hk : k0 = key
      · subst hk
        simp [dictDel, dictGet, h0]
      · simp [dictDel, dictGet, h0, hk, ih]

theorem dictGet_eq_none_of_not_mem {β : Type} (m : List (String × β)) (k : String)
    (h : k ∉ m.map Prod.fst) : dictGet m k = none := by
  induction m with
  | nil => rfl
  | cons hd tl ih =>
    obtain ⟨k0, v0⟩ := hd
    simp only [List.map_cons, List.mem_cons, not_or] at h
    have : k0 ≠ k := fun hh => h.1 hh.symm
    simp [dictGet, this, ih h.2]

theorem dictGet_dictDel_self {β : Type} (m : List (String × β)) (k : String)
    (h : (m.map Prod.fst).Nodup) : dictGet (dictDel m k) k = none := by
  induction m with
  | nil => rfl
  | cons hd tl ih =>
    obtain ⟨k0, v0⟩ := hd
    simp only [List.map_cons, List.nodup_cons] at h
    by_cases h0 : k0 = k
    · subst h0
      simpa [dictDel] using dictGet_eq_none_of_not_mem tl k0 h.1
    · simp [dictDel, dictGet, h0, ih h.2]

theorem dictSet_keys {β : Type} (m : List (String × β)) (k : String) (v : β) :
    (dictSet m k v).map Prod.fst =
      if k ∈ m.map Prod.fst then m.map Prod.fst else m.map Prod.fst ++ [k] := by
  induction m with
  | nil => simp [dictSet]
  | cons hd tl ih =>
    obtain ⟨k0, v0⟩ := hd
    by_cases h0 : k0 = k
    · subst h0
      simp [dictSet]
    · have : ¬ k = k0 := fun hh => h0 hh.symm
      by_cases hmem : k ∈ tl.map Prod.fst <;>
        simp [dictSet, h0, hmem, ih, this]

theorem dictSet_keys_nodup {β : Type} (m : List (String × β)) (k : String) (v : β)
    (h : (m.map Prod.fst).Nodup) : ((dictSet m k v).map Prod.fst).Nodup := by
  rw [dictSet_keys]
  by_cases hmem : k ∈ m.map Prod.fst
  · simpa [hmem] using h
  · simp only [hmem, if_false]
    refine h.append (List.nodup_singleton k) ?_
    intro a ha hb
    have hak : a = k := List.mem_singleton.mp hb
    exact hmem (hak ▸ ha)

theorem dictDel_keys_sublist {β : Type} (m : List (String × β)) (k : String) :
    ((dictDel m k).map Prod.fst).Sublist (m.map Prod.fst) := by
  induction m with
  | nil => simp [dictDel]
  | cons hd tl ih =>
    obtain ⟨k0, v0⟩ := hd
    by_cases h0 : k0 = k
    · subst h0
      simp only [dictDel, if_pos rfl, List.map_cons]
      exact (List.sublist_cons_self _ _)
    · simpa [dictDel, h0] using ih.cons₂ k0

theorem dictDel_keys_nodup {β : Type} (m : List (String × β)) (k : String)
    (h : (m.map Prod.fst).Nodup) : ((dictDel m k).map Prod.fst).Nodup :=
  (dictDel_keys_sublist m k).nodup h

/-! ### `addName` / `removeName` lemmas -/

theorem addName_idem (name : String) (l : List String) :
    addName name (addName name l) = addName name l := by
  unfold addName
  by_cases h : name ∈ l <;> simp [h]

theorem mem_addName (name : String) (l : List String) : name ∈ addName name l := by
  unfold addName
  by_cases h : name ∈ l <;> simp [h]

theorem addName_nodup (name : String) (l : List String) (h : l.Nodup) :
    (addName name l).Nodup := by
  unfold addName
  by_cases hm : name ∈ l
  · simpa [hm] using h
  · simp only [hm, if_false]
    refine h.append (List.nodup_singleton name) ?_
    intro a ha hb
    have han : a = name := List.mem_singleton.mp hb
    exact hm (han ▸ ha)

theorem mem_of_mem_addName (name n : String) (l : List String)
    (h : n ∈ addName name l) : n = name ∨ n ∈ l := by
  unfold addName at h
  by_cases hm : name ∈ l
  · simp [hm] at h
    exact Or.inr h
  · simp [hm] at h
    tauto

theorem removeName_idem (name : String) (l : List String) :
    removeName name (removeName name l) = removeName name l := by
  induction l with
  | nil => rfl
  | cons a l ih =>
    by_cases h : a = name
    · simp [removeName, List.filter_cons, h, ih]
    · simp only [removeName, List.filter_cons] at ih ⊢
      simp [h, ih]

theorem not_mem_removeName (name : String) (l : List String) :
    name ∉ removeName name l := by
  simp [removeName, List.mem_filter]

theorem mem_of_mem_removeName (name n : String) (l : List String)
    (h : n ∈ removeName name l) : n ∈ l ∧ n ≠ name := by
  simpa [removeName, List.mem_filter] using h

/-! ### Format-mapping fold lemmas -/

theorem registerFormatStep_get (name : String) (m : List (String × List String))
    (fmt : ConversionFormat) (key : String) :
    dictGet (registerFormatStep name m fmt) key =
      if fmt.value = key then some (addName name ((dictGet m key).getD []))
      else dictGet m key := by
  unfold registerFormatStep
  rw [dictGet_dictSet]
  by_cases h : fmt.value = key
  · subst h
    simp [addName]
  · simp [h]

theorem registerFold_get (name : String) (fmts : List ConversionFormat)
    (m : List (String × List String)) (key : String) :
    dictGet (fmts.foldl (registerFormatStep name) m) key =
      if key ∈ fmts.map ConversionFormat.value
      then some (addName name ((dictGet m key).getD []))
      else dictGet m key := by
  induction fmts generalizing m with
  | nil => simp
  | cons f fs ih =>
    simp only [List.foldl_cons, List.map_cons, List.mem_cons]
    rw [ih]
    by_cases hf : f.value = key
    · by_cases hfs : key ∈ fs.map ConversionFormat.value
      · simp [hfs, registerFormatStep_get, hf, addName_idem]
      · simp [hfs, registerFormatStep_get, hf]
    · have hne : ¬ key = f.value := fun hh => hf hh.symm
      by_cases hfs : key ∈ fs.map ConversionFormat.value
      · simp [hfs, registerFormatStep_get, hf]
      · simp [hfs, registerFormatStep_get, hf, hne]

theorem registerFold_keys_nodup (name : String) (fmts : List ConversionFormat)
    (m : List (String × List String)) (h : (m.map Prod.fst).Nodup) :
    ((fmts.foldl (registerFormatStep name) m).map Prod.fst).Nodup := by
  induction fmts generalizing m with
  | nil => exact h
  | cons f fs ih =>
    simp only [List.foldl_cons]
    exact ih _ (dictSet_keys_nodup _ _ _ h)

theorem unregisterFormatStep_eq_none (name : String) (m : List (String × List String))
    (fmt : ConversionFormat) (hm : dictGet m fmt.value = none) :
    unregisterFormatStep name m fmt = m := by
  unfold unregisterFormatStep
  rw [hm]

theorem unregisterFormatStep_eq_some (name : String) (m : List (String × List String))
    (fmt : ConversionFormat) (l : List String) (hm : dictGet m fmt.value = some l) :
    unregisterFormatStep name m fmt =
      if l.filter (fun x => x ≠ name) = [] then dictDel m fmt.value
      else dictSet m fmt.value (l.filter (fun x => x ≠ name)) := by
  unfold unregisterFormatStep
  rw [hm]

theorem unregisterFormatStep_get (name : String) (m : List (String × List String))
    (fmt : ConversionFormat) (key : String) (h : (m.map Prod.fst).Nodup) :
    dictGet (unregisterFormatStep name m fmt) key =
      if fmt.value = key then pruneEntry name (dictGet m key)
      else dictGet m key := by
  by_cases hf : fmt.value = key
  · subst hf
    rw [if_pos rfl]
    cases hm : dictGet m fmt.value with
    | none =>
      rw [unregisterFormatStep_eq_none name m fmt hm, hm]
      simp [pruneEntry]
    | some l =>
      rw [unregisterFormatStep_eq_some name m fmt l hm]
      by_cases he : removeName name l = []
      · have he2 : l.filter (fun x => x ≠ name) = [] := he
        rw [if_pos he2]
        simp [pruneEntry, he, dictGet_dictDel_self m fmt.value h]
      · have he2 : ¬ l.filter (fun x => x ≠ name) = [] := he
        rw [if_neg he2, dictGet_dictSet, if_pos rfl]
        show some (removeName name l) = pruneEntry name (some l)
        simp [pruneEntry, he]
  · rw [if_neg hf]
    cases hm : dictGet m fmt.value with
    | none => rw [unregisterFormatStep_eq_none name m fmt hm]
    | some l =>
      rw [unregisterFormatStep_eq_some name m fmt l hm]
      by_cases he : l.filter (fun x => x ≠ name) = []
      · rw [if_pos he]
        exact dictGet_dictDel_ne m fmt.value key hf
      · rw [if_neg he, dictGet_dictSet, if_neg hf]

theorem unregisterFormatStep_keys_nodup (name : String)
    (m : List (String × List String)) (fmt : ConversionFormat)
    (h : (m.map Prod.fst).Nodup) :
    ((unregisterFormatStep name m fmt).map Prod.fst).Nodup := by
  cases hm : dictGet m fmt.value with
  | none =>
    rw [unregisterFormatStep_eq_none name m fmt hm]
    exact h
  | some l =>
    rw [unregisterFormatStep_eq_some name m fmt l hm]
    by_cases he : l.filter (fun x => x ≠ name) = []
    · rw [if_pos he]
      exact dictDel_keys_nodup m _ h
    · rw [if_neg he]
      exact dictSet_keys_nodup m _ _ h

theorem pruneEntry_idem (name : String) (o : Option (List String)) :
    pruneEntry name (pruneEntry name o) = pruneEntry name o := by
  cases o with
  | none => rfl
  | some l =>
    by_cases he : removeName name l = []
    · simp [pruneEntry, he]
    · simp [pruneEntry, he, removeName_idem]

theorem unregisterFold_get (name : String) (fmts : List ConversionFormat)
    (m : List (String × List String)) (key : String) (h : (m.map Prod.fst).Nodup) :
    dictGet (fmts.foldl (unregisterFormatStep name) m) key =
      if key ∈ fmts.map ConversionFormat.value then pruneEntry name (dictGet m key)
      else dictGet m key := by
  induction fmts generalizing m with
  | nil => simp
  | cons f fs ih =>
    simp only [List.foldl_cons, List.map_cons, List.mem_cons]
    rw [ih _ (unregisterFormatStep_keys_nodup name m f h),
      unregisterFormatStep_get name m f key h]
    by_cases hf : f.value = key
    · by_cases hfs : key ∈ fs.map ConversionFormat.value
      · rw [if_pos hfs, if_pos (Or.inr hfs), if_pos hf, pruneEntry_idem]
      · rw [if_neg hfs, if_pos (Or.inl hf.symm), if_pos hf]
    · by_cases hfs : key ∈ fs.map ConversionFormat.value
      · rw [if_pos hfs, if_pos (Or.inr hfs), if_neg hf]
      · have hno : ¬ (key = f.value ∨ key ∈ fs.map ConversionFormat.value) := by
          push_neg
          exact ⟨fun hh => hf hh.symm, hfs⟩
        rw [if_neg hfs, if_neg hno, if_neg hf]

/-! ### Registry lookup lemmas -/

theorem resolveNames_ok (s : ConverterRegistry) (names : List String)
    (h : ∀ n ∈ names, (dictGet s.converters n).isSome = true) :
    ∃ cs, resolveNames s names = .ok cs := by
  induction names with
  | nil => exact ⟨[], rfl⟩
  | cons n ns ih =>
    have hn := h n (List.mem_cons_self n ns)
    cases hc : dictGet s.converters n with
    | none => rw [hc] at hn; simp at hn
    | some c =>
      obtain ⟨cs, hcs⟩ := ih (fun x hx => h x (List.mem_cons_of_mem _ hx))
      exact ⟨c :: cs, by simp [resolveNames, hc, hcs]⟩

theorem resolveNames_mem (s : ConverterRegistry) (names : List String)
    (cs : List Converter) (hok : resolveNames s names = .ok cs)
    (n : String) (c : Converter) (hn : n ∈ names)
    (hc : dictGet s.converters n = some c) : c ∈ cs := by
  induction names generalizing cs with
  | nil => simp at hn
  | cons a ns ih =>
    simp only [resolveNames] at hok
    cases ha : dictGet s.converters a with
    | none => rw [ha] at hok; simp at hok
    | some c0 =>
      rw [ha] at hok
      cases hrest : resolveNames s ns with
      | error e => rw [hrest] at hok; simp at hok
      | ok cs0 =>
        rw [hrest] at hok
        simp only [Except.ok.injEq] at hok
        subst hok
        rcases List.mem_cons.mp hn with rfl | hmem
        · rw [ha] at hc
          simp only [Option.some.injEq] at hc
          subst hc
          exact List.mem_cons_self _ _
        · exact List.mem_cons_of_mem _ (ih cs0 hrest hmem)

theorem gcff_ok_of_WF (s : ConverterRegistry) (fmt : ConversionFormat) (h : WF s) :
    ∃ cs, get_converters_for_format s fmt = .ok cs := by
  unfold get_converters_for_format
  cases hm : dictGet s.format_mapping fmt.value with
  | none => exact ⟨[], by simp [resolveNames]⟩
  | some l =>
    refine resolveNames_ok s _ ?_
    simpa using h fmt.value l hm

theorem find?_first_spec {α : Type} (p : α → Bool) (l : List α) :
    (l.find? p = none ∧ ∀ a ∈ l, p a = false) ∨
    ∃ l1 c l2, l = l1 ++ c :: l2 ∧ (∀ a ∈ l1, p a = false) ∧ p c = true ∧
      l.find? p = some c := by
  induction l with
  | nil => exact Or.inl ⟨rfl, by simp⟩
  | cons a l ih =>
    cases hp : p a with
    | true =>
      right
      exact ⟨[], a, l, rfl, by simp, hp, by rw [List.find?_cons_of_pos _ hp]⟩
    | false =>
      have hneg : ¬ p a = true := by simp [hp]
      rcases ih with ⟨hnone, hall⟩ | ⟨l1, c, l2, heq, h1, hc, hfind⟩
      · left
        refine ⟨by rw [List.find?_cons_of_neg _ hneg, hnone], ?_⟩
        intro x hx
        rcases List.mem_cons.mp hx with rfl | hx
        · exact hp
        · exact hall x hx
      · right
        refine ⟨a :: l1, c, l2, by rw [heq]; rfl, ?_, hc, ?_⟩
        · intro x hx
          rcases List.mem_cons.mp hx with rfl | hx
          · exact hp
          · exact h1 x hx
        · rw [List.find?_cons_of_neg _ hneg, hfind]

/-! ### Factory lemmas -/

theorem discoverBuiltinLoop_cons_avail (f : ConverterFactory) (p : ConverterPlugin)
    (ps : List ConverterPlugin) (hp : p.is_available = .ok true) :
    discoverBuiltinLoop f (p :: ps) = discoverBuiltinLoop (register_plugin f p) ps := by
  show (match p.is_available with
        | .error e => (f, some e)
        | .ok true => discoverBuiltinLoop (register_plugin f p) ps
        | .ok false => discoverBuiltinLoop f ps) = _
  rw [hp]

theorem discoverBuiltinLoop_cons_skip (f : ConverterFactory) (p : ConverterPlugin)
    (ps : List ConverterPlugin) (hp : p.is_available = .ok false) :
    discoverBuiltinLoop f (p :: ps) = discoverBuiltinLoop f ps := by
  show (match p.is_available with
        | .error e => (f, some e)
        | .ok true => discoverBuiltinLoop (register_plugin f p) ps
        | .ok false => discoverBuiltinLoop f ps) = _
  rw [hp]

theorem discoverBuiltinLoop_cons_raise (f : ConverterFactory) (p : ConverterPlugin)
    (ps : List ConverterPlugin) (e : PyExn) (hp : p.is_available = .error e) :
    discoverBuiltinLoop f (p :: ps) = (f, some e) := by
  show (match p.is_available with
        | .error e => (f, some e)
        | .ok true => discoverBuiltinLoop (register_plugin f p) ps
        | .ok false => discoverBuiltinLoop f ps) = _
  rw [hp]

theorem regAvail_cons_avail (f : ConverterFactory) (p : ConverterPlugin)
    (ps : List ConverterPlugin) (hp : p.is_available = .ok true) :
    regAvail f (p :: ps) = regAvail (register_plugin f p) ps := by
  show (match p.is_available with
        | .ok true => regAvail (register_plugin f p) ps
        | _ => regAvail f ps) = _
  rw [hp]

theorem regAvail_cons_skip (f : ConverterFactory) (p : ConverterPlugin)
    (ps : List ConverterPlugin) (hp : p.is_available = .ok false) :
    regAvail f (p :: ps) = regAvail f ps := by
  show (match p.is_available with
        | .ok true => regAvail (register_plugin f p) ps
        | _ => regAvail f ps) = _
  rw [hp]

theorem discoverBuiltinLoop_append (f : ConverterFactory)
    (pre rest : List ConverterPlugin)
    (hpre : ∀ p ∈ pre, p.is_available = .ok true ∨ p.is_available = .ok false) :
    discoverBuiltinLoop f (pre ++ rest) = discoverBuiltinLoop (regAvail f pre) rest := by
  induction pre generalizing f with
  | nil => rfl
  | cons p ps ih =>
    have htail : ∀ q ∈ ps, q.is_available = .ok true ∨ q.is_available = .ok false :=
      fun q hq => hpre q (List.mem_cons_of_mem _ hq)
    rcases hpre p (List.mem_cons_self p ps) with hp | hp
    · rw [List.cons_append, discoverBuiltinLoop_cons_avail f p _ hp,
        regAvail_cons_avail f p ps hp]
      exact ih _ htail
    · rw [List.cons_append, discoverBuiltinLoop_cons_skip f p _ hp,
        regAvail_cons_skip f p ps hp]
      exact ih _ htail

theorem discoverBuiltinLoop_no_raise (f : ConverterFactory)
    (l : List ConverterPlugin)
    (h : ∀ p ∈ l, p.is_available = .ok true ∨ p.is_available = .ok false) :
    discoverBuiltinLoop f l = (regAvail f l, none) := by
  have := discoverBuiltinLoop_append f l [] h
  simpa using this

theorem scanFile_cons_raise (f : ConverterFactory) (p : ConverterPlugin)
    (ps : List ConverterPlugin) (e : PyExn) (hp : p.is_available = .error e) :
    scanFile f (p :: ps) = f := by
  show (match p.is_available with
        | .error _ => f
        | .ok true => scanFile (register_plugin f p) ps
        | .ok false => scanFile f ps) = _
  rw [hp]

theorem scanFile_cons_avail (f : ConverterFactory) (p : ConverterPlugin)
    (ps : List ConverterPlugin) (hp : p.is_available = .ok true) :
    scanFile f (p :: ps) = scanFile (register_plugin f p) ps := by
  show (match p.is_available with
        | .error _ => f
        | .ok true => scanFile (register_plugin f p) ps
        | .ok false => scanFile f ps) = _
  rw [hp]

theorem scanFile_cons_skip (f : ConverterFactory) (p : ConverterPlugin)
    (ps : List ConverterPlugin) (hp : p.is_available = .ok false) :
    scanFile f (p :: ps) = scanFile f ps := by
  show (match p.is_available with
        | .error _ => f
        | .ok true => scanFile (register_plugin f p) ps
        | .ok false => scanFile f ps) = _
  rw [hp]

theorem scanFile_no_raise (f : ConverterFactory) (l : List ConverterPlugin)
    (h : ∀ p ∈ l, p.is_available = .ok true ∨ p.is_available = .ok false) :
    scanFile f l = regAvail f l := by
  induction l generalizing f with
  | nil => rfl
  | cons p ps ih =>
    have htail : ∀ q ∈ ps, q.is_available = .ok true ∨ q.is_available = .ok false :=
      fun q hq => h q (List.mem_cons_of_mem _ hq)
    rcases h p (List.mem_cons_self p ps) with hp | hp
    · rw [scanFile_cons_avail f p ps hp, regAvail_cons_avail f p ps hp]
      exact ih _ htail
    · rw [scanFile_cons_skip f p ps hp, regAvail_cons_skip f p ps hp]
      exact ih _ htail

theorem availableLoop_ok (l : List (String × ConverterPlugin))
    (hav : ∀ np ∈ l, ∃ b, (np : String × ConverterPlugin).2.is_available = .ok b) :
    availableLoop l = .ok ((l.filter (fun np => pluginAvailable np.2)).map Prod.fst) := by
  induction l with
  | nil => rfl
  | cons hd tl ih =>
    obtain ⟨n, p⟩ := hd
    obtain ⟨b, hb⟩ := hav (n, p) (List.mem_cons_self _ tl)
    have htail := fun x hx => hav x (List.mem_cons_of_mem _ hx)
    have hb2 : p.is_available = Except.ok b := hb
    have hpa : pluginAvailable p = b := by
      unfold pluginAvailable
      rw [hb2]
      cases b <;> rfl
    show (match p.is_available with
          | .error e => Except.error e
          | .ok b =>
            match availableLoop tl with
            | .error e => Except.error e
            | .ok ns => Except.ok (if b then n :: ns else ns)) = _
    rw [hb2, ih htail]
    cases b
    · simp [List.filter_cons, hpa]
    · simp [List.filter_cons, hpa]

/-! ### Registry equation lemmas -/

theorem unregister_eq_absent (s : ConverterRegistry) (name : String)
    (h : dictGet s.converters name = none) : unregister_converter s name = s := by
  unfold unregister_converter
  rw [h]

theorem unregister_eq_present (s : ConverterRegistry) (name : String) (c : Converter)
    (h : dictGet s.converters name = some c) :
    unregister_converter s name =
      { s with
        format_mapping := c.supported_formats.foldl (unregisterFormatStep name) s.format_mapping,
        converters := dictDel s.converters name } := by
  unfold unregister_converter
  rw [h]

theorem find_best_eq_ok (s : ConverterRegistry) (req : ConversionRequest)
    (cs : List Converter)
    (hcs : get_converters_for_format s req.output_format = .ok cs) :
    find_best_converter s req = .ok (cs.find? (fun c => c.validate_request req)) := by
  unfold find_best_converter
  rw [hcs]

theorem convert_named_eq_of_none (s : ConverterRegistry) (req : ConversionRequest)
    (n : String) (hn : n ≠ "") (hc : get_converter s n = none) :
    ConverterRegistry.convert s req (some n) =
      .error (.validationError ("Converter " ++ n ++ " not found")) := by
  show (if n = "" then registry_convert_auto s req
        else
          match get_converter s n with
          | none => .error (.validationError ("Converter " ++ n ++ " not found"))
          | some c => .ok (c.convert req)) = _
  rw [if_neg hn, hc]

theorem convert_named_eq_of_get (s : ConverterRegistry) (req : ConversionRequest)
    (n : String) (c : Converter) (hn : n ≠ "") (hc : get_converter s n = some c) :
    ConverterRegistry.convert s req (some n) = .ok (c.convert req) := by
  show (if n = "" then registry_convert_auto s req
        else
          match get_converter s n with
          | none => .error (.validationError ("Converter " ++ n ++ " not found"))
          | some c => .ok (c.convert req)) = _
  rw [if_neg hn, hc]

theorem convert_none_eq_auto (s : ConverterRegistry) (req : ConversionRequest) :
    ConverterRegistry.convert s req none = registry_convert_auto s req := rfl

theorem convert_auto_of_find_none (s : ConverterRegistry) (req : ConversionRequest)
    (cs : List Converter)
    (hcs : get_converters_for_format s req.output_format = .ok cs)
    (hfind : cs.find? (fun c => c.validate_request req) = none) :
    registry_convert_auto s req =
      .error (.validationError
        ("No converter available for format " ++ req.output_format.value)) := by
  unfold registry_convert_auto
  rw [find_best_eq_ok s req cs hcs, hfind]

theorem convert_auto_of_find_some (s : ConverterRegistry) (req : ConversionRequest)
    (cs : List Converter) (c : Converter)
    (hcs : get_converters_for_format s req.output_format = .ok cs)
    (hfind : cs.find? (fun x => x.validate_request req) = some c) :
    registry_convert_auto s req = .ok (c.convert req) := by
  unfold registry_convert_auto
  rw [find_best_eq_ok s req cs hcs, hfind]

/-! ### Factory equation lemmas for `discover_plugins` -/

theorem discover_builtin_eq_none (f : ConverterFactory) (builtins : List ConverterPlugin)
    (f2 : ConverterFactory) (h : discoverBuiltinLoop f builtins = (f2, none)) :
    discover_builtin_converters f builtins = (f2, none) := by
  unfold discover_builtin_converters
  rw [h]

theorem discover_builtin_eq_import (f : ConverterFactory) (builtins : List ConverterPlugin)
    (f2 : ConverterFactory) (m : String)
    (h : discoverBuiltinLoop f builtins = (f2, some (.importError m))) :
    discover_builtin_converters f builtins = (f2, none) := by
  unfold discover_builtin_converters
  rw [h]

theorem discover_builtin_eq_other (f : ConverterFactory) (builtins : List ConverterPlugin)
    (f2 : ConverterFactory) (m : String)
    (h : discoverBuiltinLoop f builtins = (f2, some (.otherError m))) :
    discover_builtin_converters f builtins = (f2, some (.otherError m)) := by
  unfold discover_builtin_converters
  rw [h]

theorem discover_plugins_eq_none (f : ConverterFactory) (builtins : List ConverterPlugin)
    (files : List (List ConverterPlugin)) (hauto : f.auto_discover = true)
    (f2 : ConverterFactory)
    (h : discover_builtin_converters f builtins = (f2, none)) :
    discover_plugins f builtins files = (scanPaths f2 files, none) := by
  unfold discover_plugins
  rw [if_pos hauto, h]

theorem discover_plugins_eq_raise (f : ConverterFactory) (builtins : List ConverterPlugin)
    (files : List (List ConverterPlugin)) (hauto : f.auto_discover = true)
    (f2 : ConverterFactory) (e : PyExn)
    (h : discover_builtin_converters f builtins = (f2, some e)) :
    discover_plugins f builtins files = (f2, some e) := by
  unfold discover_plugins
  rw [if_pos hauto, h]

/-! ### Well-formedness of concrete registries -/

theorem WF_empty : WF emptyRegistry := by
  intro key l h
  simp [emptyRegistry, dictGet] at h

theorem WF_regAB : WF regAB := by
  intro key l h n hn
  by_cases hk : "pdf" = key
  · subst hk
    simp only [regAB, dictGet, if_pos rfl] at h
    obtain rfl : ["A", "B"] = l := by simpa using h
    simp only [List.mem_cons, List.mem_singleton, List.not_mem_nil, or_false] at hn
    rcases hn with rfl | rfl <;> decide
  · simp [regAB, dictGet, hk] at h

/-! ### Claim theorems -/

/-- C7: Every `ConversionResult` produced by the converter result
constructors (`_create_result_success`, `_create_result_failure`)
satisfies: status is `completed` iff `output_data` is present and
`error_message` absent, and status is `failed` iff `error_message` is
present and `output_data` absent. -/
theorem result_constructors_invariant :
    (∀ (c : Converter) (job_id : String) (data : List Nat) (filename : Option String)
        (metadata : Option (List (String × String))) (now : Nat) (r : ConversionResult),
      create_result_success c job_id data filename metadata now = some r →
        ((r.status = .completed) ↔
          (r.output_data.isSome = true ∧ r.error_message.isNone = true)) ∧
        ((r.status = .failed) ↔
          (r.error_message.isSome = true ∧ r.output_data.isNone = true))) ∧
    (∀ (c : Converter) (job_id msg : String)
        (metadata : Option (List (String × String))) (now : Nat),
      (((create_result_failure c job_id msg metadata now).status = .completed) ↔
        ((create_result_failure c job_id msg metadata now).output_data.isSome = true ∧
         (create_result_failure c job_id msg metadata now).error_message.isNone = true)) ∧
      (((create_result_failure c job_id msg metadata now).status = .failed) ↔
        ((create_result_failure c job_id msg metadata now).error_message.isSome = true ∧
         (create_result_failure c job_id msg metadata now).output_data.isNone = true))) := by
  constructor
  · intro c job_id data filename metadata now r hr
    cases filename with
    | none =>
      cases hh : c.supported_formats.head? with
      | none => simp [create_result_success, hh] at hr
      | some fmt =>
        simp only [create_result_success, hh, Option.some.injEq] at hr
        subst hr
        exact ⟨by simp, by simp⟩
    | some s =>
      by_cases hs : s = ""
      · cases hh : c.supported_formats.head? with
        | none => simp [create_result_success, hs, hh] at hr
        | some fmt =>
          simp only [create_result_success, hs, hh, if_true, Option.some.injEq] at hr
          subst hr
          exact ⟨by simp, by simp⟩
      · simp only [create_result_success, hs, if_false, Option.some.injEq] at hr
        subst hr
        exact ⟨by simp, by simp⟩
  · intro c job_id msg metadata now
    refine ⟨?_, ?_⟩ <;> simp [create_result_failure]

/-- Witness for C7: the success constructor at converter `A`, job `j`,
payload `[1, 2]`, and the invariant holding for the result it builds. -/
theorem result_constructors_invariant_witness :
    ((resS.status = ConversionStatus.completed) ↔
      (resS.output_data.isSome = true ∧ resS.error_message.isNone = true)) ∧
    ((resS.status = ConversionStatus.failed) ↔
      (resS.error_message.isSome = true ∧ resS.output_data.isNone = true)) :=
  result_constructors_invariant.1 convA "j" [1, 2] none none 0 resS (by decide)

/-- C8: `update_config_value(key, value)` returns false (never raising)
when the key is not a registered entry or the value fails the entry's
validation rules, and returns true after storing the value otherwise, so
that a subsequent `get_config_value(key)` returns the stored value. -/
theorem update_config_value_spec (m : ConfigurationManager) (key : String) (value : PyVal) :
    (dictGet m.config_entries key = none →
      update_config_value m key value = (false, m)) ∧
    (∀ entry, dictGet m.config_entries key = some entry →
      validate_config_value entry value = false →
      update_config_value m key value = (false, m)) ∧
    (∀ entry, dictGet m.config_entries key = some entry →
      validate_config_value entry value = true →
      (update_config_value m key value).1 = true ∧
      ∀ d, get_config_value (update_config_value m key value).2 key d = some value) := by
  refine ⟨?_, ?_, ?_⟩
  · intro h
    unfold update_config_value
    rw [h]
  · intro entry he hv
    have hstep : update_config_value m key value =
        (if ¬ validate_config_value entry value = true then (false, m)
         else
          (true,
            { config_entries := dictSet m.config_entries key { entry with value := some value },
              config_cache := dictSet m.config_cache key (some value) })) := by
      unfold update_config_value
      rw [he]
    rw [hstep, if_pos (by simp [hv])]
  · intro entry he hv
    have hstep : update_config_value m key value =
        (if ¬ validate_config_value entry value = true then (false, m)
         else
          (true,
            { config_entries := dictSet m.config_entries key { entry with value := some value },
              config_cache := dictSet m.config_cache key (some value) })) := by
      unfold update_config_value
      rw [he]
    have hupd : update_config_value m key value =
        (true,
          { config_entries := dictSet m.config_entries key { entry with value := some value },
            config_cache := dictSet m.config_cache key (some value) }) := by
      rw [hstep, if_neg (by simp [hv])]
    refine ⟨by rw [hupd], ?_⟩
    intro d
    rw [hupd]
    unfold get_config_value
    rw [dictGet_dictSet, if_pos rfl]

/-- Witness for C8: updating `pdf.page_size` to the allowed value `A3`
succeeds and is then read back; the same key rejects `A5`; an unknown key
is rejected. -/
theorem update_config_value_spec_witness :
    ((update_config_value mgrW "pdf.page_size" (.vStr "A3")).1 = true ∧
      get_config_value (update_config_value mgrW "pdf.page_size" (.vStr "A3")).2
        "pdf.page_size" none = some (.vStr "A3")) ∧
    update_config_value mgrW "pdf.page_size" (.vStr "A5") = (false, mgrW) ∧
    update_config_value mgrW "missing" (.vInt 0) = (false, mgrW) := by
  refine ⟨?_, ?_, ?_⟩
  · obtain ⟨h1, h2⟩ :=
      (update_config_value_spec mgrW "pdf.page_size" (.vStr "A3")).2.2 entryPageSize
        rfl (by decide)
    exact ⟨h1, h2 none⟩
  · exact (update_config_value_spec mgrW "pdf.page_size" (.vStr "A5")).2.1 entryPageSize
      rfl (by decide)
  · exact (update_config_value_spec mgrW "missing" (.vInt 0)).1 rfl

/-- C9 counterexample: a converter registered under the empty name is
returned by `get_converter ""`, yet `convert(request, converter_name="")`
does not dispatch to it: `if converter_name:` treats the empty string as
falsy, so the call falls back to format-based selection and — the
converter validating nothing — raises the no-converter validation error
instead of returning its result. -/
theorem convert_empty_name_fallback_cex :
    get_converter (register_converter emptyRegistry convEmptyName) "" =
      some convEmptyName ∧
    ConverterRegistry.convert (register_converter emptyRegistry convEmptyName)
      reqPdf (some "") =
      .error (.validationError
        ("No converter available for format " ++ ConversionFormat.pdf.value)) ∧
    ConverterRegistry.convert (register_converter emptyRegistry convEmptyName)
      reqPdf (some "") ≠ .ok (convEmptyName.convert reqPdf) := by
  refine ⟨rfl, rfl, ?_⟩
  intro h
  exact absurd h (by decide)

/-- C9 (amended): for a registered converter named `n`, `convert(request,
converter_name=n)` dispatches to its `convert()` with no format or
validation check — stated under the explicit hypotheses that
`validate_request` is false and the output format is unsupported —
whenever `n` is non-empty (truthy); when `n` is the empty string,
`if converter_name:` treats the name as absent and the call falls back to
format-based selection instead of dispatching by name. -/
theorem convert_named_dispatch_unchecked (s : ConverterRegistry)
    (req : ConversionRequest) (n : String) (c : Converter)
    (hc : get_converter s n = some c)
    (_hv : c.validate_request req = false)
    (_hf : req.output_format ∉ c.supported_formats) :
    (n ≠ "" → ConverterRegistry.convert s req (some n) = .ok (c.convert req)) ∧
    (n = "" →
      ConverterRegistry.convert s req (some n) = registry_convert_auto s req) := by
  constructor
  · intro hn
    exact convert_named_eq_of_get s req n c hn hc
  · intro hn
    subst hn
    rfl

/-- Witness for C9's amended theorem: the registry dispatches to `A` by
name on an HTML request although `A` supports only PDF and validates
nothing; and the empty-named converter's lookup falls back to
format-based selection. -/
theorem convert_named_dispatch_unchecked_witness :
    ConverterRegistry.convert regAB reqHtml (some "A") = .ok (convA.convert reqHtml) ∧
    ConverterRegistry.convert (register_converter emptyRegistry convEmptyName)
      reqPdf (some "") =
      registry_convert_auto (register_converter emptyRegistry convEmptyName) reqPdf :=
  ⟨(convert_named_dispatch_unchecked regAB reqHtml "A" convA rfl rfl (by decide)).1
     (by decide),
   (convert_named_dispatch_unchecked (register_converter emptyRegistry convEmptyName)
     reqPdf "" convEmptyName rfl rfl (by decide)).2 rfl⟩

/-- C10: `register_converter` has no raise path; even when the
registration-time probe yields status `unhealthy`, the converter is stored
in the name-map and the format-index (with the unhealthy snapshot in the
health map), so `get_converter` returns it and `convert` dispatches to it
by name. -/
theorem register_unhealthy_converter_spec (s : ConverterRegistry) (c : Converter)
    (_hU : (check_converter_health c).status = "unhealthy") :
    get_converter (register_converter s c) c.name = some c ∧
    (∀ fmt ∈ c.supported_formats,
      ∃ l, dictGet (register_converter s c).format_mapping fmt.value = some l ∧
        c.name ∈ l) ∧
    dictGet (register_converter s c).health_status c.name =
      some (check_converter_health c) ∧
    (∀ req, c.name ≠ "" →
      ConverterRegistry.convert (register_converter s c) req (some c.name) =
        .ok (c.convert req)) := by
  refine ⟨?_, ?_, ?_, ?_⟩
  · show dictGet (dictSet s.converters c.name c) c.name = some c
    rw [dictGet_dictSet, if_pos rfl]
  · intro fmt hfmt
    have hkey : fmt.value ∈ c.supported_formats.map ConversionFormat.value :=
      List.mem_map_of_mem _ hfmt
    refine ⟨addName c.name ((dictGet s.format_mapping fmt.value).getD []), ?_, ?_⟩
    · show dictGet (c.supported_formats.foldl (registerFormatStep c.name) s.format_mapping)
        fmt.value = _
      rw [registerFold_get, if_pos hkey]
    · exact mem_addName _ _
  · show dictGet (dictSet s.health_status c.name (check_converter_health c)) c.name = _
    rw [dictGet_dictSet, if_pos rfl]
  · intro req hn
    refine convert_named_eq_of_get _ req c.name c hn ?_
    show dictGet (dictSet s.converters c.name c) c.name = some c
    rw [dictGet_dictSet, if_pos rfl]

/-- Witness for C10: converter `u` probes unhealthy (`is_initialized`
false) yet is returned by `get_converter` after registration. -/
theorem register_unhealthy_converter_spec_witness :
    get_converter (register_converter emptyRegistry convU) convU.name = some convU ∧
    ConverterRegistry.convert (register_converter emptyRegistry convU) reqPdf
      (some convU.name) = .ok (convU.convert reqPdf) :=
  ⟨(register_unhealthy_converter_spec emptyRegistry convU (by decide)).1,
   (register_unhealthy_converter_spec emptyRegistry convU (by decide)).2.2.2 reqPdf
     (by decide)⟩

/-- C2: after `register_converter(C)`, `get_converter(C.name)` returns
exactly C, every format in `C.supported_formats` maps via
`get_converters_for_format` to a list containing C, no name appears twice
in any single format-index list, and a second same-named registration
wins.  The hypotheses require the pre-state to satisfy the dict-state
invariants (format-index names are registry keys, no duplicates). -/
theorem register_converter_spec (s : ConverterRegistry) (C : Converter)
    (hWF : WF s)
    (hnd : ∀ key l, dictGet s.format_mapping key = some l → l.Nodup) :
    get_converter (register_converter s C) C.name = some C ∧
    (∀ fmt ∈ C.supported_formats,
      ∃ cs, get_converters_for_format (register_converter s C) fmt = .ok cs ∧ C ∈ cs) ∧
    (∀ key l, dictGet (register_converter s C).format_mapping key = some l → l.Nodup) ∧
    (∀ c2 : Converter, c2.name = C.name →
      get_converter (register_converter (register_converter s C) c2) C.name = some c2) := by
  have hconv : (register_converter s C).converters = dictSet s.converters C.name C := rfl
  have hfm : (register_converter s C).format_mapping =
      C.supported_formats.foldl (registerFormatStep C.name) s.format_mapping := rfl
  refine ⟨?_, ?_, ?_, ?_⟩
  · show dictGet (dictSet s.converters C.name C) C.name = some C
    rw [dictGet_dictSet, if_pos rfl]
  · intro fmt hfmt
    have hkey : fmt.value ∈ C.supported_formats.map ConversionFormat.value :=
      List.mem_map_of_mem _ hfmt
    have hget : dictGet (register_converter s C).format_mapping fmt.value =
        some (addName C.name ((dictGet s.format_mapping fmt.value).getD [])) := by
      rw [hfm, registerFold_get, if_pos hkey]
    have hall : ∀ n ∈ addName C.name ((dictGet s.format_mapping fmt.value).getD []),
        (dictGet (register_converter s C).converters n).isSome = true := by
      intro n hn
      rcases mem_of_mem_addName C.name n _ hn with rfl | hmem
      · rw [hconv, dictGet_dictSet, if_pos rfl]
        rfl
      · have hisOld : (dictGet s.converters n).isSome = true := by
          cases hfmOld : dictGet s.format_mapping fmt.value with
          | none =>
            rw [hfmOld] at hmem
            simp at hmem
          | some l0 =>
            rw [hfmOld] at hmem
            exact hWF fmt.value l0 hfmOld n hmem
        rw [hconv, dictGet_dictSet]
        by_cases hname : C.name = n
        · rw [if_pos hname]
          rfl
        · rw [if_neg hname]
          exact hisOld
    obtain ⟨cs, hcs⟩ := resolveNames_ok (register_converter s C) _ hall
    have hgc : get_converters_for_format (register_converter s C) fmt = .ok cs := by
      unfold get_converters_for_format
      rw [hget]
      exact hcs
    refine ⟨cs, hgc, ?_⟩
    refine resolveNames_mem _ _ cs hcs C.name C (mem_addName _ _) ?_
    show dictGet (dictSet s.converters C.name C) C.name = some C
    rw [dictGet_dictSet, if_pos rfl]
  · intro key l hl
    rw [hfm, registerFold_get] at hl
    by_cases hkey : key ∈ C.supported_formats.map ConversionFormat.value
    · rw [if_pos hkey] at hl
      injection hl with hl
      subst hl
      apply addName_nodup
      cases hfmOld : dictGet s.format_mapping key with
      | none => simp
      | some l0 => simpa using hnd key l0 hfmOld
    · rw [if_neg hkey] at hl
      exact hnd key l hl
  · intro c2 h2
    show dictGet (dictSet (register_converter s C).converters c2.name c2) C.name = some c2
    rw [dictGet_dictSet, if_pos h2]

/-- Witness for C2: registering `B` into the empty registry. -/
theorem register_converter_spec_witness :
    get_converter (register_converter emptyRegistry convB) convB.name = some convB :=
  (register_converter_spec emptyRegistry convB WF_empty
    (fun key l h => by simp [emptyRegistry, dictGet] at h)).1

/-- C3: `find_best_converter` iterates the converters registered for the
request's output format in registration order, returning the first whose
`validate_request` is true, `none` when none validates, and never a
converter whose `validate_request` is false.  The hypothesis requires a
well-formed format index (the invariant claim C1 examines). -/
theorem find_best_converter_spec (s : ConverterRegistry) (req : ConversionRequest)
    (hWF : WF s) :
    ∃ cs, get_converters_for_format s req.output_format = .ok cs ∧
      find_best_converter s req = .ok (cs.find? (fun c => c.validate_request req)) ∧
      ((∀ c ∈ cs, c.validate_request req = false) →
        find_best_converter s req = .ok none) ∧
      (∀ c, find_best_converter s req = .ok (some c) →
        c.validate_request req = true ∧
        ∃ l1 l2, cs = l1 ++ c :: l2 ∧ ∀ a ∈ l1, a.validate_request req = false) := by
  obtain ⟨cs, hcs⟩ := gcff_ok_of_WF s req.output_format hWF
  have hfb := find_best_eq_ok s req cs hcs
  refine ⟨cs, hcs, hfb, ?_, ?_⟩
  · intro hall
    have hnone : cs.find? (fun c => c.validate_request req) = none := by
      rw [List.find?_eq_none]
      intro x hx
      simp [hall x hx]
    rw [hfb, hnone]
  · intro c hc
    rw [hfb] at hc
    simp only [Except.ok.injEq] at hc
    rcases find?_first_spec (fun c => c.validate_request req) cs with
      ⟨hn, _⟩ | ⟨l1, c0, l2, heq, h1, hc0, hfind⟩
    · rw [hn] at hc
      exact absurd hc (by simp)
    · rw [hfind] at hc
      obtain rfl : c0 = c := Option.some.inj hc
      exact ⟨hc0, l1, l2, heq, h1⟩

/-- Witness for C3 (spec Scenario C): `A` and `B` both registered for PDF
in that order, `A` validating nothing and `B` everything, so the first
validator `B` is selected. -/
theorem find_best_converter_spec_witness :
    find_best_converter regAB reqPdf = .ok (some convB) := by
  obtain ⟨cs, hcs, hfb, -, -⟩ := find_best_converter_spec regAB reqPdf WF_regAB
  have hval : (Except.ok [convA, convB] : Except RegError (List Converter)) =
      Except.ok cs := by
    rw [← hcs]
    rfl
  obtain rfl : [convA, convB] = cs := Except.ok.inj hval
  rw [hfb]
  rfl

/-- C4: `convert` raises a validation error (invoking no converter) in
exactly two cases — a given `converter_name` that is not registered, and
no given name with no registered converter for the format validating the
request — and otherwise returns the chosen converter's result unchanged.
The hypothesis requires a well-formed format index. -/
theorem registry_convert_spec (s : ConverterRegistry) (req : ConversionRequest)
    (hWF : WF s) :
    (∀ n, n ≠ "" → get_converter s n = none →
      ConverterRegistry.convert s req (some n) =
        .error (.validationError ("Converter " ++ n ++ " not found"))) ∧
    (∀ n c, n ≠ "" → get_converter s n = some c →
      ConverterRegistry.convert s req (some n) = .ok (c.convert req)) ∧
    (∀ cs, get_converters_for_format s req.output_format = .ok cs →
      ((∀ c ∈ cs, c.validate_request req = false) →
        ConverterRegistry.convert s req none =
          .error (.validationError
            ("No converter available for format " ++ req.output_format.value))) ∧
      (∀ c, cs.find? (fun x => x.validate_request req) = some c →
        ConverterRegistry.convert s req none = .ok (c.convert req))) ∧
    (∀ e, ConverterRegistry.convert s req none = .error e →
      e = .validationError
        ("No converter available for format " ++ req.output_format.value)) := by
  refine ⟨?_, ?_, ?_, ?_⟩
  · intro n hn hc
    exact convert_named_eq_of_none s req n hn hc
  · intro n c hn hc
    exact convert_named_eq_of_get s req n c hn hc
  · intro cs hcs
    constructor
    · intro hall
      have hnone : cs.find? (fun x => x.validate_request req) = none := by
        rw [List.find?_eq_none]
        intro x hx
        simp [hall x hx]
      rw [convert_none_eq_auto]
      exact convert_auto_of_find_none s req cs hcs hnone
    · intro c hfind
      rw [convert_none_eq_auto]
      exact convert_auto_of_find_some s req cs c hcs hfind
  · intro e he
    obtain ⟨cs, hcs⟩ := gcff_ok_of_WF s req.output_format hWF
    rw [convert_none_eq_auto] at he
    cases hfind : cs.find? (fun x => x.validate_request req) with
    | none =>
      rw [convert_auto_of_find_none s req cs hcs hfind] at he
      simp only [Except.error.injEq] at he
      exact he.symm
    | some c =>
      rw [convert_auto_of_find_some s req cs c hcs hfind] at he
      exact absurd he (by simp)

/-- Witness for C4: a missing `converter_name` fails with the not-found
validation error, and format-based dispatch returns `B`'s result. -/
theorem registry_convert_spec_witness :
    ConverterRegistry.convert regAB reqPdf (some "missing") =
      .error (.validationError ("Converter " ++ "missing" ++ " not found")) ∧
    ConverterRegistry.convert regAB reqPdf none = .ok (convB.convert reqPdf) := by
  refine ⟨?_, ?_⟩
  · exact (registry_convert_spec regAB reqPdf WF_regAB).1 "missing" (by decide) rfl
  · exact ((registry_convert_spec regAB reqPdf WF_regAB).2.2.1 [convA, convB] rfl).2
      convB rfl

/-- C1 counterexample: register `x` for PDF, replace it by a same-named
converter supporting only HTML, then unregister `x`.  The cascade removal
follows the replacement's `supported_formats`, so the PDF entry still
references `x` although `get_converter x` is `None` — refuting "no
format-index entry references name" and the every-name-is-a-key
invariant on this reachable state. -/
theorem unregister_stale_format_entry_cex :
    get_converter staleReg "x" = none ∧
    dictGet staleReg.format_mapping "pdf" = some ["x"] ∧
    ¬ (∀ key l, dictGet staleReg.format_mapping key = some l → "x" ∉ l) ∧
    ¬ WF staleReg := by
  refine ⟨rfl, rfl, ?_, ?_⟩
  · intro h
    exact h "pdf" ["x"] rfl (by simp)
  · intro h
    have hx := h "pdf" ["x"] rfl "x" (by simp)
    exact absurd hx (by decide)

/-- C1 (amended): unregistering an absent name is a no-op; for a present
name, provided the registry is a well-formed dict state and every format
entry containing the name lies under one of the *stored* converter's
supported formats, the name disappears from every format entry, emptied
entries are deleted, `get_converter` returns `None`, and the
names-are-keys invariant is preserved.  (Without the occurrence
hypothesis the cascade misses entries, as the counterexample shows.) -/
theorem unregister_converter_spec (s : ConverterRegistry) (name : String) :
    (get_converter s name = none → unregister_converter s name = s) ∧
    (∀ c, get_converter s name = some c →
      (s.converters.map Prod.fst).Nodup →
      (s.format_mapping.map Prod.fst).Nodup →
      (∀ key l, dictGet s.format_mapping key = some l → l ≠ []) →
      (∀ key l, dictGet s.format_mapping key = some l → name ∈ l →
        key ∈ c.supported_formats.map ConversionFormat.value) →
      (get_converter (unregister_converter s name) name = none ∧
       (∀ key l, dictGet (unregister_converter s name).format_mapping key = some l →
         name ∉ l ∧ l ≠ []) ∧
       (WF s → WF (unregister_converter s name)))) := by
  constructor
  · intro h
    exact unregister_eq_absent s name h
  · intro c hc hck hfk hne hocc
    have hrw := unregister_eq_present s name c hc
    have hfm2 : ∀ key, dictGet (unregister_converter s name).format_mapping key =
        if key ∈ c.supported_formats.map ConversionFormat.value
        then pruneEntry name (dictGet s.format_mapping key)
        else dictGet s.format_mapping key := by
      intro key
      rw [hrw]
      exact unregisterFold_get name c.supported_formats s.format_mapping key hfk
    have hcv2 : (unregister_converter s name).converters = dictDel s.converters name := by
      rw [hrw]
    refine ⟨?_, ?_, ?_⟩
    · show dictGet (unregister_converter s name).converters name = none
      rw [hcv2]
      exact dictGet_dictDel_self s.converters name hck
    · intro key l hl
      rw [hfm2] at hl
      by_cases hkey : key ∈ c.supported_formats.map ConversionFormat.value
      · rw [if_pos hkey] at hl
        cases hmk : dictGet s.format_mapping key with
        | none =>
          rw [hmk] at hl
          simp [pruneEntry] at hl
        | some l0 =>
          rw [hmk] at hl
          by_cases hemp : removeName name l0 = []
          · simp [pruneEntry, hemp] at hl
          · have hpe : pruneEntry name (some l0) = some (removeName name l0) := by
              simp [pruneEntry, hemp]
            rw [hpe] at hl
            injection hl with hl
            subst hl
            exact ⟨not_mem_removeName name l0, hemp⟩
      · rw [if_neg hkey] at hl
        refine ⟨?_, hne key l hl⟩
        intro hmem
        exact hkey (hocc key l hl hmem)
    · intro hwf key l hl n hn
      rw [hfm2] at hl
      rw [hcv2]
      by_cases hkey : key ∈ c.supported_formats.map ConversionFormat.value
      · rw [if_pos hkey] at hl
        cases hmk : dictGet s.format_mapping key with
        | none =>
          rw [hmk] at hl
          simp [pruneEntry] at hl
        | some l0 =>
          rw [hmk] at hl
          by_cases hemp : removeName name l0 = []
          · simp [pruneEntry, hemp] at hl
          · have hpe : pruneEntry name (some l0) = some (removeName name l0) := by
              simp [pruneEntry, hemp]
            rw [hpe] at hl
            injection hl with hl
            subst hl
            obtain ⟨hn0, hnn⟩ := mem_of_mem_removeName name n l0 hn
            rw [dictGet_dictDel_ne s.converters name n (fun hh => hnn hh.symm)]
            exact hwf key l0 hmk n hn0
      · rw [if_neg hkey] at hl
        have hnn : n ≠ name := by
          intro hh
          subst hh
          exact hkey (hocc key l hl hn)
        rw [dictGet_dictDel_ne s.converters name n (fun hh => hnn hh.symm)]
        exact hwf key l hl n hn

/-- Witness for C1's amended theorem: unregistering `A` from the two-
converter registry removes it from the name-map. -/
theorem unregister_converter_spec_witness :
    get_converter (unregister_converter regAB "A") "A" = none := by
  refine ((unregister_converter_spec regAB "A").2 convA rfl (by decide) (by decide)
    ?_ ?_).1
  · intro key l h
    by_cases hk : "pdf" = key
    · subst hk
      simp only [regAB, dictGet, if_pos rfl] at h
      obtain rfl : ["A", "B"] = l := by simpa using h
      decide
    · simp [regAB, dictGet, hk] at h
  · intro key l h hm
    by_cases hk : "pdf" = key
    · subst hk
      decide
    · simp [regAB, dictGet, hk] at h

/-- C5 counterexample: builtin discovery of `[good, boom, late]`, where
`boom.is_available()` raises a non-ImportError exception: the exception
escapes `discover_plugins()`, the later plugin `late` was never
discovered, and `get_available_plugins()` lists only `good`. -/
theorem discover_plugins_exn_escapes_cex :
    (discover_plugins f0 [pGood, pBoom, pLate] []).2 =
      some (.otherError "probe failed") ∧
    dictGet (discover_plugins f0 [pGood, pBoom, pLate] []).1.plugins "late" = none ∧
    get_available_plugins (discover_plugins f0 [pGood, pBoom, pLate] []).1 =
      .ok ["good"] :=
  ⟨rfl, rfl, rfl⟩

/-- C5 (amended): a raising `is_available()` in builtin discovery is never
isolated per plugin: a non-ImportError exception escapes
`discover_plugins()` and aborts the remaining builtin plugins and all path
discovery; an ImportError is caught by the batch-level handler (whose
fallback registers nothing), so no exception escapes but the remaining
builtin plugins are still skipped while path discovery proceeds.  Only
path-based discovery isolates a raising plugin, per file: other files are
still scanned. -/
theorem discover_plugins_exn_spec (f : ConverterFactory)
    (pre post : List ConverterPlugin) (b bi : ConverterPlugin)
    (files : List (List ConverterPlugin)) (m mi : String)
    (hauto : f.auto_discover = true)
    (hpre : ∀ p ∈ pre, p.is_available = .ok true ∨ p.is_available = .ok false)
    (hb : b.is_available = .error (.otherError m))
    (hbi : bi.is_available = .error (.importError mi)) :
    discover_plugins f (pre ++ b :: post) files =
      (regAvail f pre, some (.otherError m)) ∧
    discover_plugins f (pre ++ bi :: post) files =
      (scanPaths (regAvail f pre) files, none) ∧
    discover_plugins f [] ((b :: post) :: files) = (scanPaths f files, none) := by
  refine ⟨?_, ?_, ?_⟩
  · have hloop : discoverBuiltinLoop f (pre ++ b :: post) =
        (regAvail f pre, some (.otherError m)) := by
      rw [discoverBuiltinLoop_append f pre (b :: post) hpre]
      exact discoverBuiltinLoop_cons_raise (regAvail f pre) b post _ hb
    exact discover_plugins_eq_raise f _ files hauto _ _
      (discover_builtin_eq_other f _ _ m hloop)
  · have hloop : discoverBuiltinLoop f (pre ++ bi :: post) =
        (regAvail f pre, some (.importError mi)) := by
      rw [discoverBuiltinLoop_append f pre (bi :: post) hpre]
      exact discoverBuiltinLoop_cons_raise (regAvail f pre) bi post _ hbi
    exact discover_plugins_eq_none f _ files hauto _
      (discover_builtin_eq_import f _ _ mi hloop)
  · have hbc : discover_builtin_converters f [] = (f, none) :=
      discover_builtin_eq_none f [] f rfl
    rw [discover_plugins_eq_none f [] ((b :: post) :: files) hauto f hbc]
    show (scanPaths (scanFile f (b :: post)) files, (none : Option PyExn)) = _
    rw [scanFile_cons_raise f b post _ hb]

/-- Witness for C5's amended theorem at the concrete plugin lists. -/
theorem discover_plugins_exn_spec_witness :
    discover_plugins f0 [pGood, pBoom, pLate] [[pLate]] =
      (regAvail f0 [pGood], some (.otherError "probe failed")) ∧
    discover_plugins f0 [pGood, pImp, pLate] [[pLate]] =
      (scanPaths (regAvail f0 [pGood]) [[pLate]], none) := by
  have hpre : ∀ p ∈ [pGood],
      p.is_available = Except.ok true ∨ p.is_available = Except.ok false := by
    intro p hp
    simp only [List.mem_singleton] at hp
    subst hp
    exact Or.inl rfl
  have h := discover_plugins_exn_spec f0 [pGood] [pLate] pBoom pImp [[pLate]]
    "probe failed" "no module" rfl hpre rfl rfl
  exact ⟨h.1, h.2.1⟩

/-- C6 counterexample: a factory whose second plugin's `is_available()`
raises: the exception escapes `health_check()` (it is raised while
computing `available_plugins` through `get_available_plugins()`, outside
any per-plugin handler), so no report is produced at all. -/
theorem factory_health_check_exn_escapes_cex :
    ConverterFactory.health_check fBoom = .error (.otherError "probe failed") := rfl

/-- C6 (amended): when no plugin's `is_available()` raises, `health_check`
returns the report with keys `total_plugins`, `available_plugins`,
`status` and `plugins`, and a per-plugin exception from
`get_dependencies()` or `get_metadata()` becomes that entry's
`available: False` / `error` dictionary only; but an exception from
`is_available()` escapes `health_check()` itself (see the
counterexample), since the available count is computed outside the
per-plugin handler. -/
theorem factory_health_check_spec (f : ConverterFactory)
    (hav : ∀ np ∈ f.plugins,
      ∃ b, (np : String × ConverterPlugin).2.is_available = Except.ok b) :
    ∃ r, ConverterFactory.health_check f = .ok r ∧
      r.total_plugins = f.plugins.length ∧
      r.available_plugins =
        ((f.plugins.filter (fun np => pluginAvailable np.2)).map Prod.fst).length ∧
      (r.status = "healthy" ∨ r.status = "no_plugins_available") ∧
      r.plugins = f.plugins.map (fun np => (np.1, plugin_entry np.2)) ∧
      (∀ (p : ConverterPlugin) (bv : Bool) (deps : List String) (e : PyExn),
        p.is_available = .ok bv → p.get_dependencies = .ok deps →
        p.get_metadata = .error e → plugin_entry p = .err e.msg) ∧
      (∀ (p : ConverterPlugin) (bv : Bool) (deps : List String) (md : String),
        p.is_available = .ok bv → p.get_dependencies = .ok deps →
        p.get_metadata = .ok md → plugin_entry p = .ok bv deps md) := by
  have havail : get_available_plugins f =
      .ok ((f.plugins.filter (fun np => pluginAvailable np.2)).map Prod.fst) :=
    availableLoop_ok f.plugins hav
  have hhc : ConverterFactory.health_check f = .ok
      { total_plugins := f.plugins.length,
        available_plugins :=
          ((f.plugins.filter (fun np => pluginAvailable np.2)).map Prod.fst).length,
        status :=
          if ((f.plugins.filter (fun np => pluginAvailable np.2)).map Prod.fst).length > 0
          then "healthy" else "no_plugins_available",
        plugins := f.plugins.map (fun np => (np.1, plugin_entry np.2)) } := by
    unfold ConverterFactory.health_check
    rw [havail]
  refine ⟨_, hhc, rfl, rfl, ?_, rfl, ?_, ?_⟩
  · by_cases hlen :
      ((f.plugins.filter (fun np => pluginAvailable np.2)).map Prod.fst).length > 0
    · left
      exact if_pos hlen
    · right
      exact if_neg hlen
  · intro p bv deps e h1 h2 h3
    unfold plugin_entry
    rw [h1, h2, h3]
  · intro p bv deps md h1 h2 h3
    unfold plugin_entry
    rw [h1, h2, h3]

/-- Witness for C6's amended theorem at the factory holding `good` and the
metadata-raising `badmeta`. -/
theorem factory_health_check_spec_witness :
    ∃ r, ConverterFactory.health_check fMeta = .ok r ∧
      r.total_plugins = fMeta.plugins.length ∧
      r.available_plugins =
        ((fMeta.plugins.filter (fun np => pluginAvailable np.2)).map Prod.fst).length ∧
      (r.status = "healthy" ∨ r.status = "no_plugins_available") ∧
      r.plugins = fMeta.plugins.map (fun np => (np.1, plugin_entry np.2)) ∧
      (∀ (p : ConverterPlugin) (bv : Bool) (deps : List String) (e : PyExn),
        p.is_available = .ok bv → p.get_dependencies = .ok deps →
        p.get_metadata = .error e → plugin_entry p = .err e.msg) ∧
      (∀ (p : ConverterPlugin) (bv : Bool) (deps : List String) (md : String),
        p.is_available = .ok bv → p.get_dependencies = .ok deps →
        p.get_metadata = .ok md → plugin_entry p = .ok bv deps md) := by
  refine factory_health_check_spec fMeta ?_
  intro np hnp
  simp only [fMeta, List.mem_cons, List.mem_singleton, List.not_mem_nil, or_false] at hnp
  rcases hnp with rfl | rfl
  · exact ⟨true, rfl⟩
  · exact ⟨true, rfl⟩

end Kanvert
